import Mathlib

/-!
Verification development for the cosmjs excerpt: the CosmWasm REST client
(src/packages/sdk/src/cosmwasmclient.ts) and the multisignature aggregation
subsystem exercised by src/unnamed/part_000.  The client code is embedded
directly from the TypeScript source; the multisignature functions
(createMultisigThresholdPubkey, makeMultisignedTx, TxRaw.encode/decode) are
not part of the provided sources (only their test/caller is), so they are
modelled from the specification, as indicated on each definition.
-/

/-- A coin amount, `Coin` from types.ts: `{amount: string, denom: string}`. -/
structure Coin where
  amount : String
  denom : String
deriving DecidableEq

/-- `StdFee` from types.ts: a list of coins plus a gas limit string. -/
structure StdFee where
  amount : List Coin
  gas : String
deriving DecidableEq

/-- `FeeTable` from cosmwasmclient.ts. -/
structure FeeTable where
  upload : StdFee
  init : StdFee
  exec : StdFee
  send : StdFee
deriving DecidableEq

/-- `Partial<FeeTable>` as used by `makeWritable`: each field present or absent. -/
structure CustomFeeTable where
  upload : Option StdFee
  init : Option StdFee
  exec : Option StdFee
  send : Option StdFee
deriving DecidableEq

/-- `singleAmount` from cosmwasmclient.ts: one coin with the stringified amount. -/
def singleAmount (amount : Nat) (denom : String) : List Coin :=
  [{ amount := toString amount, denom := denom }]

/-- `defaultFees` from cosmwasmclient.ts lines 30-47. -/
def defaultFees : FeeTable :=
  { upload := { amount := singleAmount 25000 "ucosm", gas := "1000000" }
    init := { amount := singleAmount 12500 "ucosm", gas := "500000" }
    exec := { amount := singleAmount 5000 "ucosm", gas := "200000" }
    send := { amount := singleAmount 2000 "ucosm", gas := "80000" } }

/-- The object spread `\x7b ...defaultFees, ...customFees \x7d` of the constructor:
custom fields override the defaults field by field. -/
def mergeFees (customFees : CustomFeeTable) : FeeTable :=
  { upload := customFees.upload.getD defaultFees.upload
    init := customFees.init.getD defaultFees.init
    exec := customFees.exec.getD defaultFees.exec
    send := customFees.send.getD defaultFees.send }

/-- The empty `Partial<FeeTable>` literal. -/
def emptyCustomFees : CustomFeeTable :=
  { upload := none, init := none, exec := none, send := none }

/-- One attribute of a log event (logs.ts, outside src). -/
structure LogAttribute where
  key : String
  value : String
deriving DecidableEq

/-- One event of a structured log (logs.ts, outside src). -/
structure LogEvent where
  eventType : String
  attributes : List LogAttribute
deriving DecidableEq

/-- One structured log entry (logs.ts, outside src). -/
structure Log where
  msg_index : Nat
  log : String
  events : List LogEvent
deriving DecidableEq

/-- `CosmosSdkAccount` from types.ts (file outside src; fields as used by the
client): the REST `auth/accounts` result value.  A missing account manifests as
an empty `address` field. -/
structure CosmosSdkAccount where
  address : String
  coins : List Coin
  public_key : String
  account_number : Nat
  sequence : Nat
deriving DecidableEq

/-- `StdSignature` from types.ts (outside src): a public key and signature, both
in their textual encodings. -/
structure StdSignature where
  pub_key : String
  signature : String
deriving DecidableEq

/-- Modelled from the spec: base64 of the payload bytes (`Encoding.toBase64`,
library code outside src).  Any injective textual encoding serves; the client
never inspects the text. -/
def toBase64 (bytes : List Nat) : String :=
  toString bytes

/-- Opaque JSON payload (`init_msg` / `handleMsg` objects are never inspected by
the client). -/
abbrev JsonObject := String

/-- The four message shapes built by cosmwasmclient.ts, with their fields. -/
inductive Msg where
  | storeCode (sender : String) (wasm_byte_code : String) (source : String) (builder : String)
  | instantiateContract (sender : String) (code_id : String) (init_msg : JsonObject)
      (init_funds : List Coin)
  | executeContract (sender : String) (contract : String) (msg : JsonObject)
      (sent_funds : List Coin)
  | send (from_address : String) (to_address : String) (amount : List Coin)
deriving DecidableEq

/-- Modelled from the spec: `makeSignBytes` (encoding.ts, outside src) is a
deterministic byte sequence that is a function of exactly these inputs (§4.2);
modelled as the tuple of its inputs, which is deterministic and injective. -/
structure SignDoc where
  msgs : List Msg
  fee : StdFee
  chain_id : String
  memo : String
  accountNumber : Nat
  sequence : Nat
deriving DecidableEq

/-- Modelled from the spec: `makeSignBytes` packages its six inputs (§4.2). -/
def makeSignBytes (msgs : List Msg) (fee : StdFee) (chainId : String) (memo : String)
    (accountNumber : Nat) (sequence : Nat) : SignDoc :=
  { msgs := msgs, fee := fee, chain_id := chainId, memo := memo
    accountNumber := accountNumber, sequence := sequence }

/-- The signed transaction object assembled by the client operations. -/
structure SignedTx where
  msg : List Msg
  fee : StdFee
  memo : String
  signatures : List StdSignature
deriving DecidableEq

/-- Modelled from the spec: `marshalTx` (encoding.ts, outside src) is the
deterministic, invertible wire encoding of a signed transaction (§4.2);
modelled as a wrapper around the transaction value. -/
structure WireTx where
  tx : SignedTx
deriving DecidableEq

/-- Modelled from the spec: `marshalTx` wraps the signed transaction into its
wire form. -/
def marshalTx (tx : SignedTx) : WireTx :=
  { tx := tx }

/-- The transport response to `RestClient.postTx` (§6 of the spec:
`\x7bresult_code, tx_identifier, raw_log, structured_logs\x7d`). -/
structure BroadcastResponse where
  code : Nat
  raw_log : String
  txhash : String
  logs : List Log
deriving DecidableEq

/-- `PostTxResult` from cosmwasmclient.ts. -/
structure PostTxResult where
  logs : List Log
  rawLog : String
  transactionHash : String
deriving DecidableEq

/-- `GetNonceResult` from cosmwasmclient.ts. -/
structure GetNonceResult where
  accountNumber : Nat
  sequence : Nat
deriving DecidableEq

/-- `ExecuteResult` from cosmwasmclient.ts. -/
structure ExecuteResult where
  logs : List Log
deriving DecidableEq

/-- One call made through the RestClient transport, recorded for the embedding
so that absence of transport traffic is provable. -/
inductive TransportCall where
  | authAccounts (address : String)
  | nodeInfo
  | postTx (tx : WireTx)
deriving DecidableEq

/-- The transport behind the RestClient: node network name, the
`auth/accounts` result value per address, and the broadcast responder. -/
structure Transport where
  network : String
  accounts : String → CosmosSdkAccount
  broadcast : WireTx → BroadcastResponse

/-- Client computations: an exception monad (TypeScript `throw`) over a log of
transport calls.  The call log survives a throw, so "no transport call was
made before the failure" is expressible. -/
def ClientM (α : Type) : Type :=
  List TransportCall → Except String α × List TransportCall

/-- Return for `ClientM`. -/
def ClientM.pure (a : α) : ClientM α :=
  fun calls => (Except.ok a, calls)

/-- Bind for `ClientM`: a thrown error short-circuits, keeping the call log. -/
def ClientM.bind (m : ClientM α) (f : α → ClientM β) : ClientM β :=
  fun calls =>
    match m calls with
    | (Except.error e, calls') => (Except.error e, calls')
    | (Except.ok a, calls') => f a calls'

instance : Monad ClientM where
  pure := ClientM.pure
  bind := ClientM.bind

/-- `throw new Error(e)`. -/
def throwC (e : String) : ClientM α :=
  fun calls => (Except.error e, calls)

/-- Record one transport call. -/
def recordCall (c : TransportCall) : ClientM Unit :=
  fun calls => (Except.ok (), calls ++ [c])

/-- Run a fallible pure computation inside `ClientM`. -/
def liftExc (e : Except String α) : ClientM α :=
  fun calls => (e, calls)

/-- Run a client computation on the empty call log. -/
def runC (m : ClientM α) : Except String α × List TransportCall :=
  m []

/-- `SigningData` from cosmwasmclient.ts; the signing callback is the external
signing capability (§6), modelled as a pure function on sign docs. -/
structure SigningData where
  senderAddress : String
  signCallback : SignDoc → StdSignature

/-- `CosmWasmClient`: the RestClient (modelled by its transport), optional
signing data and the fee table. -/
structure CosmWasmClient where
  transport : Transport
  signingData : Option SigningData
  fees : FeeTable

/-- The private constructor (cosmwasmclient.ts lines 135-139): builds the fee
table as `\x7b ...defaultFees, ...customFees \x7d`. -/
def CosmWasmClient.make (t : Transport) (signingData : Option SigningData)
    (customFees : CustomFeeTable) : CosmWasmClient :=
  { transport := t, signingData := signingData, fees := mergeFees customFees }

/-- `CosmWasmClient.makeReadOnly`: no signing data, empty custom fees. -/
def makeReadOnly (t : Transport) : CosmWasmClient :=
  CosmWasmClient.make t none emptyCustomFees

/-- `CosmWasmClient.makeWritable`: signing data plus `feeTable || \x7b\x7d`. -/
def makeWritable (t : Transport) (senderAddress : String)
    (signCallback : SignDoc → StdSignature) (feeTable : Option CustomFeeTable) :
    CosmWasmClient :=
  CosmWasmClient.make t (some { senderAddress := senderAddress, signCallback := signCallback })
    (feeTable.getD emptyCustomFees)

/-- The private `senderAddress` getter: throws when no signing data is set. -/
def CosmWasmClient.senderAddress (c : CosmWasmClient) : Except String String :=
  match c.signingData with
  | none => Except.error "Signing data not set in this client"
  | some sd => Except.ok sd.senderAddress

/-- The private `signCallback` getter: throws when no signing data is set. -/
def CosmWasmClient.signCallback (c : CosmWasmClient) :
    Except String (SignDoc → StdSignature) :=
  match c.signingData with
  | none => Except.error "Signing data not set in this client"
  | some sd => Except.ok sd.signCallback

/-- The argument expression `address || this.senderAddress` of `getAccount`:
an absent or empty address falls back to the sender address getter. -/
def resolveAddress (c : CosmWasmClient) (address : Option String) : Except String String :=
  match address with
  | none => c.senderAddress
  | some a => if a = "" then c.senderAddress else Except.ok a

/-- `getAccount` (cosmwasmclient.ts lines 176-180): queries `auth/accounts`
and maps an empty result address to "not found". -/
def getAccount (c : CosmWasmClient) (address : Option String) :
    ClientM (Option CosmosSdkAccount) := do
  let addr ← liftExc (resolveAddress c address)
  recordCall (TransportCall.authAccounts addr)
  let value := c.transport.accounts addr
  pure (if value.address = "" then none else some value)

/-- `getNonce` (cosmwasmclient.ts lines 163-174): throws when the account does
not exist, otherwise returns its account number and sequence. -/
def getNonce (c : CosmWasmClient) (address : Option String) : ClientM GetNonceResult := do
  let account ← getAccount c address
  match account with
  | none =>
      throwC "Account does not exist on chain. Send some tokens there before trying to query nonces."
  | some account =>
      pure { accountNumber := account.account_number, sequence := account.sequence }

/-- `chainId` (cosmwasmclient.ts lines 141-144). -/
def chainId (c : CosmWasmClient) : ClientM String := do
  recordCall TransportCall.nodeInfo
  pure c.transport.network

/-- The regex `^([0-9A-F][0-9A-F])+$`: is this character an upper-case hex digit? -/
def isUpperHexDigit (ch : Char) : Bool :=
  (decide ('0' ≤ ch) && decide (ch ≤ '9')) || (decide ('A' ≤ ch) && decide (ch ≤ 'F'))

/-- `txhash.match(/^([0-9A-F][0-9A-F])+$/)`: one or more pairs of upper-case
hex digits, i.e. non-empty, even length, all upper-case hex. -/
def txhashWellFormed (s : String) : Bool :=
  (s.length != 0) && (s.length % 2 == 0) && s.data.all isUpperHexDigit

/-- `postTx` (cosmwasmclient.ts lines 216-231): posts the wire transaction,
throws on any non-zero result code (embedding the code and `raw_log` in the
message), throws on an ill-formatted transaction hash, and otherwise returns
the logs, raw log and hash. -/
def postTx (c : CosmWasmClient) (tx : WireTx) : ClientM PostTxResult := do
  recordCall (TransportCall.postTx tx)
  let result := c.transport.broadcast tx
  if result.code ≠ 0 then
    throwC ("Error when posting tx. Code: " ++ toString result.code ++ "; Raw log: "
      ++ result.raw_log)
  else if !txhashWellFormed result.txhash then
    throwC "Received ill-formatted txhash. Must be non-empty upper-case hex"
  else
    pure { logs := result.logs, rawLog := result.raw_log, transactionHash := result.txhash }

/-- Modelled from the spec: `findAttribute` (logs.ts, outside src) extracts the
value of the attribute with the given key from the event with the given type,
failing when absent (log parsing is an external collaborator, §1). -/
def findAttribute (logs : List Log) (eventType : String) (attrKey : String) :
    Except String LogAttribute :=
  match logs.findSome? (fun l =>
      (l.events.find? (fun e => e.eventType = eventType)).bind
        (fun e => e.attributes.find? (fun a => a.key = attrKey))) with
  | none =>
      Except.error ("Could not find attribute " ++ attrKey ++ " in first event of type "
        ++ eventType)
  | some attr => Except.ok attr

/-- Modelled from the spec: `Number.parseInt(value, 10)`; `none` models `NaN`. -/
def parseInt10 (s : String) : Option Nat :=
  s.toNat?

/-- `upload` (cosmwasmclient.ts lines 234-261): store-code message, upload fee,
nonce and chain id, sign, post, and extract the code id from the logs. -/
def upload (c : CosmWasmClient) (wasmCode : List Nat) (memo : String) :
    ClientM (Option Nat) := do
  let sender ← liftExc c.senderAddress
  let storeCodeMsg : Msg := Msg.storeCode sender (toBase64 wasmCode) "" ""
  let fee := c.fees.upload
  let nonce ← getNonce c none
  let cid ← chainId c
  let signBytes := makeSignBytes [storeCodeMsg] fee cid memo nonce.accountNumber nonce.sequence
  let cb ← liftExc c.signCallback
  let signature := cb signBytes
  let signedTx : SignedTx :=
    { msg := [storeCodeMsg], fee := fee, memo := memo, signatures := [signature] }
  let result ← postTx c (marshalTx signedTx)
  let codeIdAttr ← liftExc (findAttribute result.logs "message" "code_id")
  pure (parseInt10 codeIdAttr.value)

/-- `instantiate` (cosmwasmclient.ts lines 263-297). -/
def instantiate (c : CosmWasmClient) (codeId : Nat) (initMsg : JsonObject) (memo : String)
    (transferAmount : Option (List Coin)) : ClientM String := do
  let sender ← liftExc c.senderAddress
  let instantiateMsg : Msg :=
    Msg.instantiateContract sender (toString codeId) initMsg (transferAmount.getD [])
  let fee := c.fees.init
  let nonce ← getNonce c none
  let cid ← chainId c
  let signBytes := makeSignBytes [instantiateMsg] fee cid memo nonce.accountNumber nonce.sequence
  let cb ← liftExc c.signCallback
  let signature := cb signBytes
  let signedTx : SignedTx :=
    { msg := [instantiateMsg], fee := fee, memo := memo, signatures := [signature] }
  let result ← postTx c (marshalTx signedTx)
  let contractAddressAttr ← liftExc (findAttribute result.logs "message" "contract_address")
  pure contractAddressAttr.value

/-- `execute` (cosmwasmclient.ts lines 299-331). -/
def execute (c : CosmWasmClient) (contractAddress : String) (handleMsg : JsonObject)
    (memo : String) (transferAmount : Option (List Coin)) : ClientM ExecuteResult := do
  let sender ← liftExc c.senderAddress
  let executeMsg : Msg :=
    Msg.executeContract sender contractAddress handleMsg (transferAmount.getD [])
  let fee := c.fees.exec
  let nonce ← getNonce c none
  let cid ← chainId c
  let signBytes := makeSignBytes [executeMsg] fee cid memo nonce.accountNumber nonce.sequence
  let cb ← liftExc c.signCallback
  let signature := cb signBytes
  let signedTx : SignedTx :=
    { msg := [executeMsg], fee := fee, memo := memo, signatures := [signature] }
  let result ← postTx c (marshalTx signedTx)
  pure { logs := result.logs }

/-- `sendTokens` (cosmwasmclient.ts lines 333-361). -/
def sendTokens (c : CosmWasmClient) (recipientAddress : String)
    (transferAmount : List Coin) (memo : String) : ClientM PostTxResult := do
  let sender ← liftExc c.senderAddress
  let sendMsg : Msg := Msg.send sender recipientAddress transferAmount
  let fee := c.fees.send
  let nonce ← getNonce c none
  let cid ← chainId c
  let signBytes := makeSignBytes [sendMsg] fee cid memo nonce.accountNumber nonce.sequence
  let cb ← liftExc c.signCallback
  let signature := cb signBytes
  let signedTx : SignedTx :=
    { msg := [sendMsg], fee := fee, memo := memo, signatures := [signature] }
  postTx c (marshalTx signedTx)

/-- Modelled from the spec: a single-signer public key, `Single\x7bcurve,
compressed_bytes\x7d` (§3); the amino implementation is outside src. -/
structure SinglePubKey where
  curve : String
  compressed : List Nat
deriving DecidableEq

/-- Modelled from the spec: the tagged `PublicKey` union (§3); threshold keys
carry the threshold and the canonically ordered single-signer members (§4.1
constructs them from Single keys only). -/
inductive PublicKey where
  | single (key : SinglePubKey)
  | threshold (threshold : Nat) (members : List SinglePubKey)
deriving DecidableEq

/-- Modelled from the spec: a threshold key as produced by
`createMultisigThresholdPubkey` (§4.1). -/
structure ThresholdPubKey where
  threshold : Nat
  members : List SinglePubKey
deriving DecidableEq

/-- Strict ascending lexicographic comparison of byte sequences, the member
ordering key of §4.1. -/
def bytesLt : List Nat → List Nat → Bool
  | [], [] => false
  | [], _ :: _ => true
  | _ :: _, [] => false
  | a :: as, b :: bs => if a < b then true else if b < a then false else bytesLt as bs

/-- The non-strict member ordering used for canonicalization: `a` does not come
strictly after `b`. -/
def memberLe (a b : SinglePubKey) : Prop :=
  bytesLt b.compressed a.compressed = false

instance : DecidableRel memberLe := fun a b => by
  unfold memberLe
  infer_instance

/-- Strict member ordering by compressed bytes. -/
def memberLt (a b : SinglePubKey) : Prop :=
  bytesLt a.compressed b.compressed = true

/-- Modelled from the spec: canonical ascending order of members by their
compressed byte representation (§4.1). -/
def sortMembers (members : List SinglePubKey) : List SinglePubKey :=
  List.insertionSort memberLe members

/-- Modelled from the spec: `createMultisigThresholdPubkey` (§4.1) validates
`1 ≤ threshold ≤ len(members)` and canonicalizes the member order. -/
def createMultisigThresholdPubkey (pubkeys : List SinglePubKey) (threshold : Nat) :
    Except String ThresholdPubKey :=
  if 1 ≤ threshold ∧ threshold ≤ pubkeys.length then
    Except.ok { threshold := threshold, members := sortMembers pubkeys }
  else
    Except.error "InvalidThresholdError"

/-- A natural number as a one-element byte sequence (the wire alphabet of the
model is ℕ). -/
def encNat (n : Nat) : List Nat :=
  [n]

/-- Read one number. -/
def readNat : List Nat → Option (Nat × List Nat)
  | [] => none
  | n :: rest => some (n, rest)

/-- Length-prefixed byte sequence. -/
def encBytes (b : List Nat) : List Nat :=
  b.length :: b

/-- Read a length-prefixed byte sequence. -/
def readBytes : List Nat → Option (List Nat × List Nat)
  | [] => none
  | n :: rest => if n ≤ rest.length then some (rest.take n, rest.drop n) else none

/-- A string as its length-prefixed character codes. -/
def encStr (s : String) : List Nat :=
  encBytes (s.data.map Char.toNat)

/-- Read a length-prefixed string. -/
def readStr (l : List Nat) : Option (String × List Nat) :=
  match readBytes l with
  | none => none
  | some (bs, rest) => some (String.mk (bs.map Char.ofNat), rest)

/-- Concatenated item encodings. -/
def encItems (enc : α → List Nat) : List α → List Nat
  | [] => []
  | a :: as => enc a ++ encItems enc as

/-- Count-prefixed sequence of item encodings. -/
def encListOf (enc : α → List Nat) (l : List α) : List Nat :=
  l.length :: encItems enc l

/-- Read `n` items with the given item reader. -/
def readItems (readA : List Nat → Option (α × List Nat)) :
    Nat → List Nat → Option (List α × List Nat)
  | 0, l => some ([], l)
  | n + 1, l =>
    match readA l with
    | none => none
    | some (a, r) =>
      match readItems readA n r with
      | none => none
      | some (as, r') => some (a :: as, r')

/-- Read a count-prefixed sequence of items. -/
def readListOf (readA : List Nat → Option (α × List Nat)) (l : List Nat) :
    Option (List α × List Nat) :=
  match readNat l with
  | none => none
  | some (n, rest) => readItems readA n rest

/-- Canonical encoding of a single-signer key: curve then compressed bytes. -/
def encSingleKey (k : SinglePubKey) : List Nat :=
  encStr k.curve ++ encBytes k.compressed

/-- Read a single-signer key. -/
def readSingleKey (l : List Nat) : Option (SinglePubKey × List Nat) :=
  match readStr l with
  | none => none
  | some (curve, r1) =>
    match readBytes r1 with
    | none => none
    | some (compressed, r2) => some ({ curve := curve, compressed := compressed }, r2)

/-- Modelled from the spec: the address of a single-signer key (§3), a one-way
hash-and-truncate of the key; the hash itself lives outside src, so it is
modelled by the injective canonical key encoding, which the claims (which need
only determinism and distinctness) are insensitive to. -/
def deriveSingleAddress (k : SinglePubKey) : List Nat :=
  encSingleKey k

/-- Modelled from the spec: `pubkeyToAddress` (§4.1 deriveAddress): for a
threshold key the hash input is the canonical multisig-key encoding (threshold
plus canonically ordered member encodings), prefixed by the display prefix. -/
def pubkeyToAddress (key : PublicKey) (hrp : String) : List Nat :=
  match key with
  | PublicKey.single k => encStr hrp ++ deriveSingleAddress k
  | PublicKey.threshold t members => encStr hrp ++ (encNat t ++ encListOf encSingleKey members)

/-- Modelled from the spec: `MultisigSignatureData` (§3): the participation bit
array over the members and the signatures of the set positions in bit-array
order. -/
structure MultisigSignatureData where
  bitArray : List Bool
  signatures : List (List Nat)
deriving DecidableEq

/-- First signature recorded for the given address (the signature mapping of
§4.3 as an association list with unique keys). -/
def lookupSig (a : List Nat) : List (List Nat × List Nat) → Option (List Nat)
  | [] => none
  | e :: es => if e.1 = a then some e.2 else lookupSig a es

/-- The member addresses of a threshold key in canonical member order (§4.3
step 1). -/
def memberAddresses (key : ThresholdPubKey) : List (List Nat) :=
  key.members.map deriveSingleAddress

/-- Modelled from the spec: `aggregate` (§4.3).  Fails with
`UnknownSignerError` when a signature belongs to no member, builds the bit
array over the canonical member order, collects signature bytes for set
positions in ascending index order, and fails with `NoSignaturesError` when no
bit is set.  The threshold is deliberately not consulted. -/
def aggregate (key : ThresholdPubKey) (sigs : List (List Nat × List Nat)) :
    Except String MultisigSignatureData :=
  let memberAddrs := memberAddresses key
  if ¬ (∀ e ∈ sigs, e.1 ∈ memberAddrs) then
    Except.error "UnknownSignerError"
  else
    let bits := memberAddrs.map (fun a => (lookupSig a sigs).isSome)
    let sigBytes := memberAddrs.filterMap (fun a => lookupSig a sigs)
    if bits.count true = 0 then
      Except.error "NoSignaturesError"
    else
      Except.ok { bitArray := bits, signatures := sigBytes }

/-- Serialized `MultisigSignatureData` for the envelope's single signature slot
(§4.4): bit array as zero/one bytes, then the signatures. -/
def serializeMultisigData (d : MultisigSignatureData) : List Nat :=
  encBytes (d.bitArray.map (fun b => if b then 1 else 0)) ++ encListOf encBytes d.signatures

/-- Modelled from the spec: `SignedTxEnvelope` (§3), the wire-ready structure. -/
structure SignedTxEnvelope where
  bodyBytes : List Nat
  fee : StdFee
  signerInfos : List (PublicKey × Nat)
  signatures : List (List Nat)
deriving DecidableEq

/-- Modelled from the spec: `buildSignedEnvelope` (§4.2) asserts the 1:1
positional correspondence of signer infos and signatures. -/
def buildSignedEnvelope (bodyBytes : List Nat) (fee : StdFee)
    (signerInfos : List (PublicKey × Nat)) (signatures : List (List Nat)) :
    Except String SignedTxEnvelope :=
  if signerInfos.length = signatures.length then
    Except.ok { bodyBytes := bodyBytes, fee := fee, signerInfos := signerInfos
                signatures := signatures }
  else
    Except.error "MalformedEnvelopeError"

/-- Modelled from the spec: `makeMultisignedTx` (§4.4 finalizeMultisigTx):
aggregates the collected signatures and builds the single-slot envelope whose
one signer info is the threshold key with the multisig account sequence and
whose one signature slot is the serialized `MultisigSignatureData`. -/
def makeMultisignedTx (key : ThresholdPubKey) (sequence : Nat) (fee : StdFee)
    (bodyBytes : List Nat) (sigs : List (List Nat × List Nat)) :
    Except String SignedTxEnvelope := do
  let data ← aggregate key sigs
  buildSignedEnvelope bodyBytes fee [(PublicKey.threshold key.threshold key.members, sequence)]
    [serializeMultisigData data]

/-- Encoding of a tagged public key. -/
def encPubKey : PublicKey → List Nat
  | PublicKey.single k => 0 :: encSingleKey k
  | PublicKey.threshold t members => 1 :: (encNat t ++ encListOf encSingleKey members)

/-- Read a tagged public key. -/
def readPubKey (l : List Nat) : Option (PublicKey × List Nat) :=
  match l with
  | 0 :: rest =>
    match readSingleKey rest with
    | none => none
    | some (k, r) => some (PublicKey.single k, r)
  | 1 :: rest =>
    match readNat rest with
    | none => none
    | some (t, r1) =>
      match readListOf readSingleKey r1 with
      | none => none
      | some (members, r2) => some (PublicKey.threshold t members, r2)
  | _ => none

/-- Encoding of one coin. -/
def encCoin (c : Coin) : List Nat :=
  encStr c.amount ++ encStr c.denom

/-- Read one coin. -/
def readCoin (l : List Nat) : Option (Coin × List Nat) :=
  match readStr l with
  | none => none
  | some (amount, r1) =>
    match readStr r1 with
    | none => none
    | some (denom, r2) => some ({ amount := amount, denom := denom }, r2)

/-- Encoding of a fee. -/
def encFee (f : StdFee) : List Nat :=
  encListOf encCoin f.amount ++ encStr f.gas

/-- Read a fee. -/
def readFee (l : List Nat) : Option (StdFee × List Nat) :=
  match readListOf readCoin l with
  | none => none
  | some (amount, r1) =>
    match readStr r1 with
    | none => none
    | some (gas, r2) => some ({ amount := amount, gas := gas }, r2)

/-- Encoding of one signer info: key then sequence. -/
def encSignerInfo (p : PublicKey × Nat) : List Nat :=
  encPubKey p.1 ++ encNat p.2

/-- Read one signer info. -/
def readSignerInfo (l : List Nat) : Option ((PublicKey × Nat) × List Nat) :=
  match readPubKey l with
  | none => none
  | some (k, r1) =>
    match readNat r1 with
    | none => none
    | some (seq, r2) => some ((k, seq), r2)

/-- Modelled from the spec: `encodeForBroadcast` / `TxRaw.encode` (§4.2), the
deterministic wire encoding of the envelope: body bytes, fee, signer infos,
signatures. -/
def encodeForBroadcast (e : SignedTxEnvelope) : List Nat :=
  encBytes e.bodyBytes ++ (encFee e.fee ++ (encListOf encSignerInfo e.signerInfos
    ++ encListOf encBytes e.signatures))

/-- Read a full envelope. -/
def readEnvelope (l : List Nat) : Option (SignedTxEnvelope × List Nat) :=
  match readBytes l with
  | none => none
  | some (bodyBytes, r1) =>
    match readFee r1 with
    | none => none
    | some (fee, r2) =>
      match readListOf readSignerInfo r2 with
      | none => none
      | some (signerInfos, r3) =>
        match readListOf readBytes r3 with
        | none => none
        | some (signatures, r4) =>
          some ({ bodyBytes := bodyBytes, fee := fee, signerInfos := signerInfos
                  signatures := signatures }, r4)

/-- Modelled from the spec: `decode` (§4.2): decodes a full envelope, failing
with `DecodeError` on malformed or trailing input. -/
def decodeTx (l : List Nat) : Except String SignedTxEnvelope :=
  match readEnvelope l with
  | some (e, []) => Except.ok e
  | _ => Except.error "DecodeError"

theorem clientBind_eq (m : ClientM α) (f : α → ClientM β) : m >>= f = ClientM.bind m f :=
  rfl

theorem clientPure_eq (a : α) : (pure a : ClientM α) = ClientM.pure a :=
  rfl

/-- C10: every operation that needs signing data — upload, instantiate,
execute, sendTokens, and getNonce or getAccount without an address argument —
fails on a read-only client with the error "Signing data not set in this
client", with an empty transport call log (no transport call is made). -/
theorem claim10_readonly_operations_fail_without_transport (t : Transport)
    (wasmCode : List Nat) (memo : String) (codeId : Nat) (initMsg : JsonObject)
    (transferAmount : Option (List Coin)) (contractAddress : String) (handleMsg : JsonObject)
    (recipientAddress : String) (amount : List Coin) :
    runC (upload (makeReadOnly t) wasmCode memo) =
      (Except.error "Signing data not set in this client", []) ∧
    runC (instantiate (makeReadOnly t) codeId initMsg memo transferAmount) =
      (Except.error "Signing data not set in this client", []) ∧
    runC (execute (makeReadOnly t) contractAddress handleMsg memo transferAmount) =
      (Except.error "Signing data not set in this client", []) ∧
    runC (sendTokens (makeReadOnly t) recipientAddress amount memo) =
      (Except.error "Signing data not set in this client", []) ∧
    runC (getNonce (makeReadOnly t) none) =
      (Except.error "Signing data not set in this client", []) ∧
    runC (getAccount (makeReadOnly t) none) =
      (Except.error "Signing data not set in this client", []) :=
  ⟨rfl, rfl, rfl, rfl, rfl, rfl⟩

/-- C3: for an explicitly given (non-empty) address, getNonce fails with the
"Account does not exist on chain" error when the queried account value has an
empty address (not found), producing no result, and otherwise returns exactly
the account's account_number and sequence; either way exactly one
auth/accounts transport call is made. -/
theorem claim3_getNonce_classifies_accounts (c : CosmWasmClient) (a : String)
    (ha : a ≠ "") :
    ((c.transport.accounts a).address = "" →
      runC (getNonce c (some a)) =
        (Except.error
          "Account does not exist on chain. Send some tokens there before trying to query nonces.",
         [TransportCall.authAccounts a])) ∧
    ((c.transport.accounts a).address ≠ "" →
      runC (getNonce c (some a)) =
        (Except.ok { accountNumber := (c.transport.accounts a).account_number
                     sequence := (c.transport.accounts a).sequence },
         [TransportCall.authAccounts a])) := by
  constructor
  · intro h
    simp [runC, getNonce, getAccount, resolveAddress, ha, h, clientBind_eq, clientPure_eq,
      ClientM.bind, ClientM.pure, liftExc, recordCall, throwC]
  · intro h
    simp [runC, getNonce, getAccount, resolveAddress, ha, h, clientBind_eq, clientPure_eq,
      ClientM.bind, ClientM.pure, liftExc, recordCall, throwC]

/-- A concrete transport for witnesses: the account "alice" exists with account
number 4 and sequence 7; every other account is missing. -/
def aliceTransport : Transport where
  network := "testing"
  accounts := fun a =>
    if a = "alice" then
      { address := "alice", coins := [], public_key := "", account_number := 4, sequence := 7 }
    else
      { address := "", coins := [], public_key := "", account_number := 0, sequence := 0 }
  broadcast := fun _ => { code := 0, raw_log := "", txhash := "AB", logs := [] }

/-- A concrete read-only client over `aliceTransport`. -/
def aliceClient : CosmWasmClient :=
  makeReadOnly aliceTransport

theorem claim3_witness :
    "alice" ≠ "" ∧ (aliceClient.transport.accounts "alice").address ≠ "" ∧
    runC (getNonce aliceClient (some "alice")) =
      (Except.ok { accountNumber := 4, sequence := 7 }, [TransportCall.authAccounts "alice"]) :=
  ⟨by decide, by decide,
    (claim3_getNonce_classifies_accounts aliceClient "alice" (by decide)).2 (by decide)⟩

/-- A transport whose broadcast rejects every transaction with code 1 and raw
log "out of gas". -/
def rejectingTransport : Transport where
  network := "testing"
  accounts := fun _ =>
    { address := "", coins := [], public_key := "", account_number := 0, sequence := 0 }
  broadcast := fun _ => { code := 1, raw_log := "out of gas", txhash := "AB", logs := [] }

/-- A concrete client over `rejectingTransport`. -/
def rejectingClient : CosmWasmClient :=
  makeReadOnly rejectingTransport

/-- A concrete wire transaction. -/
def someWireTx : WireTx :=
  marshalTx { msg := [], fee := defaultFees.send, memo := "", signatures := [] }

/-- C1 counterexample: on a transport response with result_code 1, postTx does
not return a normal success value carrying the rejection — it throws, with the
remote raw_log embedded in the thrown message. -/
theorem claim1_counterexample :
    (rejectingClient.transport.broadcast someWireTx).code ≠ 0 ∧
    (runC (postTx rejectingClient someWireTx)).1 =
      Except.error "Error when posting tx. Code: 1; Raw log: out of gas" := by
  exact ⟨by decide, rfl⟩

/-- C1 (amended): for every transport response with result_code ≠ 0, postTx
surfaces the rejection as a thrown exception (not a typed result) whose
message is exactly "Error when posting tx. Code: <code>; Raw log: <raw_log>",
carrying the remote's reason string verbatim as the suffix of the message. -/
theorem claim1_rejection_thrown_with_raw_log (c : CosmWasmClient) (tx : WireTx)
    (h : (c.transport.broadcast tx).code ≠ 0) :
    runC (postTx c tx) =
      (Except.error ("Error when posting tx. Code: "
          ++ toString (c.transport.broadcast tx).code ++ "; Raw log: "
          ++ (c.transport.broadcast tx).raw_log),
       [TransportCall.postTx tx]) := by
  simp [runC, postTx, clientBind_eq, clientPure_eq, ClientM.bind, ClientM.pure, recordCall,
    throwC, h]

theorem claim1_witness :
    (rejectingClient.transport.broadcast someWireTx).code ≠ 0 ∧
    runC (postTx rejectingClient someWireTx) =
      (Except.error "Error when posting tx. Code: 1; Raw log: out of gas",
       [TransportCall.postTx someWireTx]) :=
  ⟨by decide, claim1_rejection_thrown_with_raw_log rejectingClient someWireTx (by decide)⟩

/-- A transport whose broadcast accepts (code 0) but reports an ill-formatted
(empty) transaction hash. -/
def badHashTransport : Transport where
  network := "testing"
  accounts := fun _ =>
    { address := "", coins := [], public_key := "", account_number := 0, sequence := 0 }
  broadcast := fun _ => { code := 0, raw_log := "all good", txhash := "", logs := [] }

/-- A concrete client over `badHashTransport`. -/
def badHashClient : CosmWasmClient :=
  makeReadOnly badHashTransport

/-- C2 counterexample: a transport response with result_code 0 on which postTx
does NOT return a successful result — the txhash is ill-formatted, so postTx
throws even though the code denotes acceptance. -/
theorem claim2_counterexample :
    (badHashClient.transport.broadcast someWireTx).code = 0 ∧
    (runC (postTx badHashClient someWireTx)).1 =
      Except.error "Received ill-formatted txhash. Must be non-empty upper-case hex" := by
  exact ⟨by decide, rfl⟩

/-- C2 (amended): postTx fails for every non-zero result code with raw_log in
the thrown message; when the code is 0 it returns a successful result exactly
when the reported txhash is non-empty even-length upper-case hex, and throws a
txhash-format error otherwise. -/
theorem claim2_acceptance_classification (c : CosmWasmClient) (tx : WireTx) :
    ((c.transport.broadcast tx).code ≠ 0 →
      runC (postTx c tx) =
        (Except.error ("Error when posting tx. Code: "
            ++ toString (c.transport.broadcast tx).code ++ "; Raw log: "
            ++ (c.transport.broadcast tx).raw_log),
         [TransportCall.postTx tx])) ∧
    ((c.transport.broadcast tx).code = 0 →
      txhashWellFormed (c.transport.broadcast tx).txhash = true →
      runC (postTx c tx) =
        (Except.ok { logs := (c.transport.broadcast tx).logs
                     rawLog := (c.transport.broadcast tx).raw_log
                     transactionHash := (c.transport.broadcast tx).txhash },
         [TransportCall.postTx tx])) ∧
    ((c.transport.broadcast tx).code = 0 →
      txhashWellFormed (c.transport.broadcast tx).txhash = false →
      runC (postTx c tx) =
        (Except.error "Received ill-formatted txhash. Must be non-empty upper-case hex",
         [TransportCall.postTx tx])) := by
  refine ⟨fun h => ?_, fun h hx => ?_, fun h hx => ?_⟩
  · simp [runC, postTx, clientBind_eq, clientPure_eq, ClientM.bind, ClientM.pure, recordCall,
      throwC, h]
  · simp [runC, postTx, clientBind_eq, clientPure_eq, ClientM.bind, ClientM.pure, recordCall,
      throwC, h, hx]
  · simp [runC, postTx, clientBind_eq, clientPure_eq, ClientM.bind, ClientM.pure, recordCall,
      throwC, h, hx]

/-- A transport whose broadcast accepts with a well-formed txhash. -/
def acceptingTransport : Transport where
  network := "testing"
  accounts := fun _ =>
    { address := "", coins := [], public_key := "", account_number := 0, sequence := 0 }
  broadcast := fun _ => { code := 0, raw_log := "all good", txhash := "00AB", logs := [] }

/-- A concrete client over `acceptingTransport`. -/
def acceptingClient : CosmWasmClient :=
  makeReadOnly acceptingTransport

theorem claim2_witness :
    runC (postTx acceptingClient someWireTx) =
      (Except.ok { logs := [], rawLog := "all good", transactionHash := "00AB" },
       [TransportCall.postTx someWireTx]) :=
  (claim2_acceptance_classification acceptingClient someWireTx).2.1 (by decide) (by decide)

/-- C9: the constructed client's fee table is the default table overridden
field by field by the fields present in the custom table; with no custom table
the fees are exactly the defaults, and sendTokens then posts a transaction
whose fee is the default send fee of 2000 ucosm with gas 80000. -/
theorem claim9_fee_table_merge (t : Transport) (s : String) (cb : SignDoc → StdSignature)
    (custom : CustomFeeTable) (recipientAddress : String) (amount : List Coin) (memo : String)
    (hacct : (t.accounts s).address ≠ "") :
    (makeWritable t s cb (some custom)).fees =
      { upload := custom.upload.getD defaultFees.upload
        init := custom.init.getD defaultFees.init
        exec := custom.exec.getD defaultFees.exec
        send := custom.send.getD defaultFees.send } ∧
    (makeWritable t s cb none).fees = defaultFees ∧
    defaultFees.send = { amount := [{ amount := "2000", denom := "ucosm" }], gas := "80000" } ∧
    (∃ stx : SignedTx, stx.fee = defaultFees.send ∧
      (runC (sendTokens (makeWritable t s cb none) recipientAddress amount memo)).2 =
        [TransportCall.authAccounts s, TransportCall.nodeInfo,
         TransportCall.postTx (marshalTx stx)]) := by
  refine ⟨rfl, rfl, rfl, ?_⟩
  refine ⟨{ msg := [Msg.send s recipientAddress amount], fee := defaultFees.send, memo := memo
            signatures := [cb (makeSignBytes [Msg.send s recipientAddress amount]
              defaultFees.send t.network memo (t.accounts s).account_number
              (t.accounts s).sequence)] }, rfl, ?_⟩
  simp [runC, sendTokens, getNonce, getAccount, chainId, postTx, resolveAddress, makeWritable,
    CosmWasmClient.make, CosmWasmClient.senderAddress, CosmWasmClient.signCallback,
    clientBind_eq, clientPure_eq, ClientM.bind, ClientM.pure, liftExc, recordCall, throwC,
    hacct, makeSignBytes, marshalTx, mergeFees, emptyCustomFees]
  split
  · split <;> rfl
  · rfl

/-- A constant external signing capability for witnesses. -/
def constSigner : SignDoc → StdSignature :=
  fun _ => { pub_key := "", signature := "" }

/-- A sample custom fee table overriding only the upload fee. -/
def sampleCustomFees : CustomFeeTable :=
  { upload := some { amount := [], gas := "1" }, init := none, exec := none, send := none }

theorem claim9_witness :
    (makeWritable aliceTransport "alice" constSigner (some sampleCustomFees)).fees =
      { upload := sampleCustomFees.upload.getD defaultFees.upload
        init := sampleCustomFees.init.getD defaultFees.init
        exec := sampleCustomFees.exec.getD defaultFees.exec
        send := sampleCustomFees.send.getD defaultFees.send } ∧
    (makeWritable aliceTransport "alice" constSigner none).fees = defaultFees ∧
    defaultFees.send = { amount := [{ amount := "2000", denom := "ucosm" }], gas := "80000" } ∧
    (∃ stx : SignedTx, stx.fee = defaultFees.send ∧
      (runC (sendTokens (makeWritable aliceTransport "alice" constSigner none) "bob" [] "")).2 =
        [TransportCall.authAccounts "alice", TransportCall.nodeInfo,
         TransportCall.postTx (marshalTx stx)]) :=
  claim9_fee_table_merge aliceTransport "alice" constSigner sampleCustomFees "bob" [] ""
    (by decide)

theorem bytesLt_irrefl : ∀ as : List Nat, bytesLt as as = false
  | [] => rfl
  | a :: as => by simp [bytesLt, bytesLt_irrefl as]

theorem bytesLt_asymm : ∀ as bs : List Nat,
    bytesLt as bs = true → bytesLt bs as = true → False
  | [], [], h1, _ => by simp [bytesLt] at h1
  | [], _ :: _, _, h2 => by simp [bytesLt] at h2
  | _ :: _, [], h1, _ => by simp [bytesLt] at h1
  | a :: as, b :: bs, h1, h2 => by
    by_cases hab : a < b
    · have hba : ¬ b < a := Nat.lt_asymm hab
      simp [bytesLt, hab, hba] at h2
    · by_cases hba : b < a
      · simp [bytesLt, hab, hba] at h1
      · simp only [bytesLt, if_neg hab, if_neg hba] at h1
        simp only [bytesLt, if_neg hba, if_neg hab] at h2
        exact bytesLt_asymm as bs h1 h2

theorem bytesLt_trichotomy : ∀ as bs : List Nat,
    bytesLt as bs = true ∨ as = bs ∨ bytesLt bs as = true
  | [], [] => Or.inr (Or.inl rfl)
  | [], _ :: _ => Or.inl (by simp [bytesLt])
  | _ :: _, [] => Or.inr (Or.inr (by simp [bytesLt]))
  | a :: as, b :: bs => by
    by_cases hab : a < b
    · exact Or.inl (by simp [bytesLt, hab])
    · by_cases hba : b < a
      · exact Or.inr (Or.inr (by simp [bytesLt, hba]))
      · have heq : a = b := Nat.le_antisymm (Nat.not_lt.mp hba) (Nat.not_lt.mp hab)
        rcases bytesLt_trichotomy as bs with h | h | h
        · exact Or.inl (by simp [bytesLt, hab, hba, h])
        · exact Or.inr (Or.inl (by rw [heq, h]))
        · exact Or.inr (Or.inr (by simp [bytesLt, hab, hba, h]))

theorem bytesLt_trans : ∀ as bs cs : List Nat,
    bytesLt as bs = true → bytesLt bs cs = true → bytesLt as cs = true
  | [], [], _, h1, _ => by simp [bytesLt] at h1
  | [], _ :: _, [], _, h2 => by simp [bytesLt] at h2
  | [], _ :: _, _ :: _, _, _ => by simp [bytesLt]
  | _ :: _, [], _, h1, _ => by simp [bytesLt] at h1
  | _ :: _, _ :: _, [], _, h2 => by simp [bytesLt] at h2
  | a :: as, b :: bs, c :: cs, h1, h2 => by
    by_cases hab : a < b
    · by_cases hbc : b < c
      · simp [bytesLt, Nat.lt_trans hab hbc]
      · by_cases hcb : c < b
        · simp [bytesLt, hbc, hcb] at h2
        · have heq : b = c := Nat.le_antisymm (Nat.not_lt.mp hcb) (Nat.not_lt.mp hbc)
          subst heq
          simp [bytesLt, hab]
    · by_cases hba : b < a
      · simp [bytesLt, hab, hba] at h1
      · have heq : a = b := Nat.le_antisymm (Nat.not_lt.mp hba) (Nat.not_lt.mp hab)
        subst heq
        simp only [bytesLt, if_neg hab, if_neg hba] at h1
        by_cases hac : a < c
        · simp [bytesLt, hac]
        · by_cases hca : c < a
          · simp [bytesLt, hac, hca] at h2
          · simp only [bytesLt, if_neg hac, if_neg hca] at h2 ⊢
            exact bytesLt_trans as bs cs h1 h2

instance : IsTotal SinglePubKey memberLe := by
  constructor
  intro a b
  unfold memberLe
  rcases bytesLt_trichotomy a.compressed b.compressed with h | h | h
  · left
    cases hba : bytesLt b.compressed a.compressed
    · rfl
    · exact (bytesLt_asymm _ _ h hba).elim
  · left
    rw [h]
    exact bytesLt_irrefl _
  · right
    cases hab : bytesLt a.compressed b.compressed
    · rfl
    · exact (bytesLt_asymm _ _ h hab).elim

instance : IsTrans SinglePubKey memberLe := by
  constructor
  intro a b c hab hbc
  unfold memberLe at *
  cases hca : bytesLt c.compressed a.compressed
  · rfl
  · exfalso
    rcases bytesLt_trichotomy b.compressed c.compressed with h | h | h
    · have := bytesLt_trans _ _ _ h hca
      rw [this] at hab
      cases hab
    · rw [h] at hab
      rw [hab] at hca
      cases hca
    · rw [h] at hbc
      cases hbc

instance : IsAntisymm SinglePubKey memberLt := by
  constructor
  intro a b h1 h2
  exact absurd h1 (fun h1 => bytesLt_asymm _ _ h1 h2)

theorem sorted_memberLe_strict {l : List SinglePubKey} (hs : l.Sorted memberLe)
    (hnd : (l.map SinglePubKey.compressed).Nodup) : l.Sorted memberLt := by
  have hne : l.Pairwise (fun a b => a.compressed ≠ b.compressed) := by
    rw [List.Nodup, List.pairwise_map] at hnd
    exact hnd
  refine (hs.and hne).imp ?_
  intro a b hb
  obtain ⟨hle, hneq⟩ := hb
  rcases bytesLt_trichotomy a.compressed b.compressed with h | h | h
  · exact h
  · exact absurd h hneq
  · exact Bool.noConfusion (by simpa only [memberLe, h] using hle : true = false)

theorem sortMembers_eq_of_perm (l₁ l₂ : List SinglePubKey) (hp : l₁.Perm l₂)
    (hnd : (l₁.map SinglePubKey.compressed).Nodup) : sortMembers l₁ = sortMembers l₂ := by
  have hs₁ : (sortMembers l₁).Sorted memberLe := List.sorted_insertionSort memberLe l₁
  have hs₂ : (sortMembers l₂).Sorted memberLe := List.sorted_insertionSort memberLe l₂
  have hp₁ : (sortMembers l₁).Perm l₁ := List.perm_insertionSort memberLe l₁
  have hp₂ : (sortMembers l₂).Perm l₂ := List.perm_insertionSort memberLe l₂
  have hperm : (sortMembers l₁).Perm (sortMembers l₂) := hp₁.trans (hp.trans hp₂.symm)
  have hnd₁ : ((sortMembers l₁).map SinglePubKey.compressed).Nodup :=
    ((hp₁.map SinglePubKey.compressed).nodup_iff).mpr hnd
  have hnd₂ : ((sortMembers l₂).map SinglePubKey.compressed).Nodup :=
    ((hperm.map SinglePubKey.compressed).nodup_iff).mp hnd₁
  exact List.eq_of_perm_of_sorted hperm (sorted_memberLe_strict hs₁ hnd₁)
    (sorted_memberLe_strict hs₂ hnd₂)

/-- C6: createMultisigThresholdPubkey is order-independent in its input set of
keys (with pairwise distinct compressed byte representations, as required for
the canonical order to be well defined): permuting the input yields the same
canonical members order and, for every display prefix, the same derived
address. -/
theorem claim6_createMultisig_order_independent (l₁ l₂ : List SinglePubKey) (t : Nat)
    (hp : l₁.Perm l₂) (hnd : (l₁.map SinglePubKey.compressed).Nodup) :
    createMultisigThresholdPubkey l₁ t = createMultisigThresholdPubkey l₂ t ∧
    ∀ hrp : String,
      (createMultisigThresholdPubkey l₁ t).map
        (fun k => pubkeyToAddress (PublicKey.threshold k.threshold k.members) hrp) =
      (createMultisigThresholdPubkey l₂ t).map
        (fun k => pubkeyToAddress (PublicKey.threshold k.threshold k.members) hrp) := by
  have hkey : createMultisigThresholdPubkey l₁ t = createMultisigThresholdPubkey l₂ t := by
    unfold createMultisigThresholdPubkey
    rw [hp.length_eq, sortMembers_eq_of_perm l₁ l₂ hp hnd]
  exact ⟨hkey, fun hrp => by rw [hkey]⟩

/-- A concrete single-signer key. -/
def keyA : SinglePubKey := { curve := "secp256k1", compressed := [1] }

/-- A concrete single-signer key. -/
def keyB : SinglePubKey := { curve := "secp256k1", compressed := [2] }

theorem claim6_witness :
    createMultisigThresholdPubkey [keyB, keyA] 1 = createMultisigThresholdPubkey [keyA, keyB] 1 ∧
    (createMultisigThresholdPubkey [keyB, keyA] 1).map
      (fun k => pubkeyToAddress (PublicKey.threshold k.threshold k.members) "cosmos") =
    (createMultisigThresholdPubkey [keyA, keyB] 1).map
      (fun k => pubkeyToAddress (PublicKey.threshold k.threshold k.members) "cosmos") :=
  ⟨(claim6_createMultisig_order_independent [keyB, keyA] [keyA, keyB] 1
      (List.Perm.swap keyA keyB []) (by decide)).1,
   (claim6_createMultisig_order_independent [keyB, keyA] [keyA, keyB] 1
      (List.Perm.swap keyA keyB []) (by decide)).2 "cosmos"⟩

theorem lookupSig_perm : ∀ {l₁ l₂ : List (List Nat × List Nat)}, l₁.Perm l₂ →
    (l₁.map Prod.fst).Nodup → ∀ a, lookupSig a l₁ = lookupSig a l₂ := by
  intro l₁ l₂ h
  induction h with
  | nil =>
    intro _ a
    rfl
  | cons x h ih =>
    intro hnd a
    rw [List.map_cons] at hnd
    have hnd' := hnd.of_cons
    by_cases hx : x.1 = a
    · simp [lookupSig, hx]
    · simp [lookupSig, hx, ih hnd' a]
  | swap x y l =>
    intro hnd a
    rw [List.map_cons, List.map_cons] at hnd
    have hyx : y.1 ≠ x.1 := by
      have h1 := (List.nodup_cons.mp hnd).1
      intro he
      exact h1 (by simp [he])
    by_cases hy : y.1 = a <;> by_cases hx : x.1 = a
    · exact absurd (hy.trans hx.symm) hyx
    · simp [lookupSig, hy, hx]
    · simp [lookupSig, hy, hx]
    · simp [lookupSig, hy, hx]
  | trans h12 h23 ih12 ih23 =>
    intro hnd a
    have hnd2 := ((h12.map Prod.fst).nodup_iff).mp hnd
    exact (ih12 hnd a).trans (ih23 hnd2 a)

theorem filterMap_eq_filter_map (g : α → Option β) (d : β) :
    ∀ l : List α, l.filterMap g =
      (l.filter (fun a => (g a).isSome)).map (fun a => (g a).getD d)
  | [] => rfl
  | a :: as => by
    cases hg : g a <;>
      simp [List.filterMap_cons, List.filter_cons, hg, filterMap_eq_filter_map g d as]

theorem count_isSome_eq_length_filterMap (g : α → Option β) :
    ∀ l : List α, (l.map (fun a => (g a).isSome)).count true = (l.filterMap g).length
  | [] => rfl
  | a :: as => by
    cases hg : g a <;>
      simp [List.filterMap_cons, List.count_cons, hg, count_isSome_eq_length_filterMap g as]

theorem aggregate_perm (key : ThresholdPubKey) {s₁ s₂ : List (List Nat × List Nat)}
    (hp : s₁.Perm s₂) (hnd : (s₁.map Prod.fst).Nodup) : aggregate key s₁ = aggregate key s₂ := by
  have hl : ∀ a, lookupSig a s₁ = lookupSig a s₂ := lookupSig_perm hp hnd
  simp only [aggregate]
  simp only [hl]
  by_cases hc : ∀ e ∈ s₁, e.1 ∈ memberAddresses key
  · have hc2 : ∀ e ∈ s₂, e.1 ∈ memberAddresses key := fun e he => hc e (hp.mem_iff.mpr he)
    rw [if_neg (not_not_intro hc), if_neg (not_not_intro hc2)]
  · have hc2 : ¬ ∀ e ∈ s₂, e.1 ∈ memberAddresses key :=
      fun h => hc (fun e he => h e (hp.mem_iff.mp he))
    rw [if_pos hc, if_pos hc2]

theorem aggregate_ok_shape (key : ThresholdPubKey) (sigs : List (List Nat × List Nat))
    (data : MultisigSignatureData) (h : aggregate key sigs = Except.ok data) :
    data.bitArray = (memberAddresses key).map (fun a => (lookupSig a sigs).isSome) ∧
    data.signatures = (memberAddresses key).filterMap (fun a => lookupSig a sigs) := by
  simp only [aggregate] at h
  split at h
  · cases h
  · split at h
    · cases h
    · cases h
      exact ⟨rfl, rfl⟩

/-- C4: the signatures in the aggregated multisig result appear in ascending
member-index order of the threshold key's canonical member sequence (they are
the signatures of the signing members listed in member order), regardless of
the order in which the signatures were supplied: a permutation of the
(uniquely keyed) signature mapping yields the identical result. -/
theorem claim4_signatures_in_member_order (key : ThresholdPubKey) (sequence : Nat)
    (fee : StdFee) (bodyBytes : List Nat) (s₁ s₂ : List (List Nat × List Nat))
    (hp : s₁.Perm s₂) (hnd : (s₁.map Prod.fst).Nodup) :
    makeMultisignedTx key sequence fee bodyBytes s₁ =
      makeMultisignedTx key sequence fee bodyBytes s₂ ∧
    ∀ env, makeMultisignedTx key sequence fee bodyBytes s₁ = Except.ok env →
      ∃ data, aggregate key s₁ = Except.ok data ∧
        env.signatures = [serializeMultisigData data] ∧
        data.signatures =
          ((memberAddresses key).filter (fun a => (lookupSig a s₁).isSome)).map
            (fun a => (lookupSig a s₁).getD []) := by
  constructor
  · unfold makeMultisignedTx
    rw [aggregate_perm key hp hnd]
  · intro env henv
    unfold makeMultisignedTx at henv
    cases hagg : aggregate key s₁ with
    | error e =>
      rw [hagg] at henv
      exact Except.noConfusion henv
    | ok data =>
      rw [hagg] at henv
      have hsig : env.signatures = [serializeMultisigData data] := by
        simp only [Except.bind, bind, buildSignedEnvelope, List.length_singleton,
          if_pos rfl] at henv
        cases henv
        rfl
      refine ⟨data, rfl, hsig, ?_⟩
      rw [(aggregate_ok_shape key s₁ data hagg).2]
      exact filterMap_eq_filter_map (fun a => lookupSig a s₁) [] (memberAddresses key)

/-- A concrete fee for multisig witnesses. -/
def feeEx : StdFee := { amount := [], gas := "0" }

/-- A concrete 2-of-2 threshold key. -/
def thresholdKeyEx : ThresholdPubKey := { threshold := 2, members := [keyA, keyB] }

/-- Signature entry of keyA's address. -/
def sigEntryA : List Nat × List Nat := (deriveSingleAddress keyA, [101])

/-- Signature entry of keyB's address. -/
def sigEntryB : List Nat × List Nat := (deriveSingleAddress keyB, [102])

theorem claim4_witness :
    makeMultisignedTx thresholdKeyEx 0 feeEx [7] [sigEntryB, sigEntryA] =
      makeMultisignedTx thresholdKeyEx 0 feeEx [7] [sigEntryA, sigEntryB] :=
  (claim4_signatures_in_member_order thresholdKeyEx 0 feeEx [7] [sigEntryB, sigEntryA]
    [sigEntryA, sigEntryB] (List.Perm.swap sigEntryA sigEntryB []) (by decide)).1

/-- C5: in every successful aggregation, the number of set bits of the bit
array equals the number of signatures in the signature sequence. -/
theorem claim5_bit_count_matches_signature_count (key : ThresholdPubKey) (sequence : Nat)
    (fee : StdFee) (bodyBytes : List Nat) (sigs : List (List Nat × List Nat))
    (env : SignedTxEnvelope)
    (henv : makeMultisignedTx key sequence fee bodyBytes sigs = Except.ok env) :
    ∃ data, aggregate key sigs = Except.ok data ∧
      env.signatures = [serializeMultisigData data] ∧
      data.bitArray.count true = data.signatures.length := by
  unfold makeMultisignedTx at henv
  cases hagg : aggregate key sigs with
  | error e =>
    rw [hagg] at henv
    exact Except.noConfusion henv
  | ok data =>
    rw [hagg] at henv
    have hsig : env.signatures = [serializeMultisigData data] := by
      simp only [Except.bind, bind, buildSignedEnvelope, List.length_singleton,
        if_pos rfl] at henv
      cases henv
      rfl
    obtain ⟨hb, hs⟩ := aggregate_ok_shape key sigs data hagg
    refine ⟨data, rfl, hsig, ?_⟩
    rw [hb, hs]
    exact count_isSome_eq_length_filterMap (fun a => lookupSig a sigs) (memberAddresses key)

/-- Whether an Except value is a success. -/
def exceptIsOk : Except ε α → Bool
  | Except.ok _ => true
  | Except.error _ => false

theorem claim5_witness :
    ∃ env data, makeMultisignedTx thresholdKeyEx 0 feeEx [7] [sigEntryA] = Except.ok env ∧
      aggregate thresholdKeyEx [sigEntryA] = Except.ok data ∧
      env.signatures = [serializeMultisigData data] ∧
      data.bitArray.count true = data.signatures.length := by
  have hok : exceptIsOk (makeMultisignedTx thresholdKeyEx 0 feeEx [7] [sigEntryA]) = true := by
    decide
  cases hm : makeMultisignedTx thresholdKeyEx 0 feeEx [7] [sigEntryA] with
  | error e =>
    rw [hm] at hok
    exact Bool.noConfusion hok
  | ok env =>
    obtain ⟨data, h1, h2, h3⟩ :=
      claim5_bit_count_matches_signature_count thresholdKeyEx 0 feeEx [7] [sigEntryA] env hm
    exact ⟨env, data, rfl, h1, h2, h3⟩

/-- C8: aggregation performs no local threshold check: it ignores the
threshold entirely, and succeeds for every non-empty signature mapping whose
addresses all belong to members, even when the number of signatures is below
the threshold. -/
theorem claim8_no_local_threshold_check (key : ThresholdPubKey)
    (sigs : List (List Nat × List Nat)) (hne : sigs ≠ [])
    (hmem : ∀ e ∈ sigs, e.1 ∈ memberAddresses key) :
    (∀ t₁ t₂ : Nat, aggregate { threshold := t₁, members := key.members } sigs =
        aggregate { threshold := t₂, members := key.members } sigs) ∧
    ∃ data, aggregate key sigs = Except.ok data := by
  refine ⟨fun t₁ t₂ => rfl, ?_⟩
  simp only [aggregate]
  rw [if_neg (not_not_intro hmem)]
  obtain ⟨e, rest, rfl⟩ : ∃ e rest, sigs = e :: rest := by
    cases sigs with
    | nil => exact absurd rfl hne
    | cons e rest => exact ⟨e, rest, rfl⟩
  have hlook : (lookupSig e.1 (e :: rest)).isSome = true := by
    simp [lookupSig]
  have hmm : e.1 ∈ memberAddresses key := hmem e (List.mem_cons_self e rest)
  have htrue : true ∈ (memberAddresses key).map (fun a => (lookupSig a (e :: rest)).isSome) :=
    List.mem_map.mpr ⟨e.1, hmm, hlook⟩
  have hcnt :
      ((memberAddresses key).map (fun a => (lookupSig a (e :: rest)).isSome)).count true ≠ 0 :=
    fun h0 => absurd htrue (List.count_eq_zero.mp h0)
  rw [if_neg hcnt]
  exact ⟨_, rfl⟩

/-- The number of set bits of an aggregation result (zero on failure). -/
def bitCountOf : Except String MultisigSignatureData → Nat
  | Except.ok d => d.bitArray.count true
  | Except.error _ => 0

/-- Three more concrete single-signer keys, for a 2-of-5 threshold key. -/
def keyC : SinglePubKey := { curve := "secp256k1", compressed := [3] }

/-- A concrete single-signer key. -/
def keyD : SinglePubKey := { curve := "secp256k1", compressed := [4] }

/-- A concrete single-signer key. -/
def keyE : SinglePubKey := { curve := "secp256k1", compressed := [5] }

/-- A concrete 2-of-5 threshold key. -/
def thresholdKey5 : ThresholdPubKey :=
  { threshold := 2, members := [keyA, keyB, keyC, keyD, keyE] }

theorem claim8_witness :
    (∃ data, aggregate thresholdKey5 [sigEntryA] = Except.ok data) ∧
    bitCountOf (aggregate thresholdKey5 [sigEntryA]) = 1 ∧
    thresholdKey5.threshold = 2 :=
  ⟨(claim8_no_local_threshold_check thresholdKey5 [sigEntryA] (by decide) (by decide)).2,
   by decide, rfl⟩

theorem readNat_enc (n : Nat) (rest : List Nat) : readNat (encNat n ++ rest) = some (n, rest) :=
  rfl

theorem readBytes_enc (b rest : List Nat) : readBytes (encBytes b ++ rest) = some (b, rest) := by
  simp only [encBytes, readBytes, List.cons_append]
  rw [if_pos (by simp)]
  rw [List.take_left, List.drop_left]

theorem readStr_enc (s : String) (rest : List Nat) :
    readStr (encStr s ++ rest) = some (s, rest) := by
  simp only [encStr, readStr, readBytes_enc]
  have hmap : (s.data.map Char.toNat).map Char.ofNat = s.data := by
    rw [List.map_map]
    simp [Function.comp_def, Char.ofNat_toNat]
  rw [hmap]

theorem readItems_enc (encA : α → List Nat) (readA : List Nat → Option (α × List Nat))
    (h : ∀ a rest, readA (encA a ++ rest) = some (a, rest)) :
    ∀ (l : List α) (rest : List Nat),
      readItems readA l.length (encItems encA l ++ rest) = some (l, rest)
  | [], rest => rfl
  | a :: as, rest => by
    simp only [List.length_cons, encItems, List.append_assoc, readItems, h,
      readItems_enc encA readA h as rest]

theorem readListOf_enc (encA : α → List Nat) (readA : List Nat → Option (α × List Nat))
    (h : ∀ a rest, readA (encA a ++ rest) = some (a, rest)) (l : List α) (rest : List Nat) :
    readListOf readA (encListOf encA l ++ rest) = some (l, rest) := by
  simp only [encListOf, readListOf, List.cons_append, readNat]
  exact readItems_enc encA readA h l rest

theorem readSingleKey_enc (k : SinglePubKey) (rest : List Nat) :
    readSingleKey (encSingleKey k ++ rest) = some (k, rest) := by
  simp only [encSingleKey, readSingleKey, List.append_assoc, readStr_enc, readBytes_enc]

theorem readPubKey_enc (k : PublicKey) (rest : List Nat) :
    readPubKey (encPubKey k ++ rest) = some (k, rest) := by
  cases k with
  | single sk =>
    simp only [encPubKey, List.cons_append, readPubKey, readSingleKey_enc]
  | threshold t members =>
    simp only [encPubKey, List.cons_append, List.append_assoc, List.singleton_append,
      List.nil_append, readPubKey, encNat, readNat,
      readListOf_enc encSingleKey readSingleKey readSingleKey_enc]

theorem readCoin_enc (c : Coin) (rest : List Nat) :
    readCoin (encCoin c ++ rest) = some (c, rest) := by
  simp only [encCoin, readCoin, List.append_assoc, readStr_enc]

theorem readFee_enc (f : StdFee) (rest : List Nat) :
    readFee (encFee f ++ rest) = some (f, rest) := by
  simp only [encFee, readFee, List.append_assoc,
    readListOf_enc encCoin readCoin readCoin_enc, readStr_enc]

theorem readSignerInfo_enc (p : PublicKey × Nat) (rest : List Nat) :
    readSignerInfo (encSignerInfo p ++ rest) = some (p, rest) := by
  simp only [encSignerInfo, readSignerInfo, List.append_assoc, readPubKey_enc, readNat_enc]

theorem readEnvelope_enc (e : SignedTxEnvelope) (rest : List Nat) :
    readEnvelope (encodeForBroadcast e ++ rest) = some (e, rest) := by
  simp only [encodeForBroadcast, readEnvelope, List.append_assoc, readBytes_enc, readFee_enc,
    readListOf_enc encSignerInfo readSignerInfo readSignerInfo_enc,
    readListOf_enc encBytes readBytes readBytes_enc]

/-- C7: decoding the broadcast encoding of a signed envelope yields the
envelope again. -/
theorem claim7_decode_encode_roundtrip (e : SignedTxEnvelope) :
    decodeTx (encodeForBroadcast e) = Except.ok e := by
  have h : readEnvelope (encodeForBroadcast e) = some (e, []) := by
    have h0 := readEnvelope_enc e []
    rwa [List.append_nil] at h0
  simp [decodeTx, h]
